import Mathlib

/-!
Shallow embedding of `webrtc/cross-browser-helper.js`.

The file models, faithfully to the JavaScript source:
* the `Future` class (a deferred value over JavaScript promise-settlement
  semantics) as `FState` together with `FState.resolve` / `FState.reject`;
* the `Signaling` class: its mutable fields become the record `SigState`,
  its methods become pure state-transformers that additionally emit the
  observable consumer deliveries (`Delivery`) they perform — resolving the
  remote-description future, invoking the candidate/data handlers, and
  resolving the remote-done future;
* `LoopbackSignaling._sendMessage` (direct forwarding into the peer's
  `_receiveMessage`) as `loopbackSend`;
* `WebSocketSignaling`'s outbound path (`_sendMessage` queueing while the
  socket is not open, and the `onopen` flush) as `WSState` / `wsSendMessage`
  / `wsOnOpen`;
* the `test.done` override of `cross_browser_test` (local-status
  computation, the single `done` send, and the PASS/FAIL reconciliation
  with the remote status) as `computeLocalDone` / `reconcileDone` /
  `testDoneOverride`.

JavaScript `null` is embedded as `JVal.null`; an absent object field is
`Option.none`.  `assert_unreached` aborts the current test, so the
message-validation path is embedded in `Except ProtocolError`.
-/

set_option linter.unusedVariables false

/-- Settlement state of a `Future` (the class extends `Promise`, so it obeys
promise-settlement semantics: the first `resolve`/`reject` wins). -/
inductive FState (α : Type) (ε : Type) where
  | pending
  | resolved (v : α)
  | rejected (e : ε)
deriving DecidableEq

/-- `Future.resolve`: settles a pending future, is ignored on a settled one
(promise semantics of the underlying `Promise` resolve capability). -/
def FState.resolve : FState α ε → α → FState α ε
  | .pending, v => .resolved v
  | s, _ => s

/-- `Future.reject`: rejects a pending future, is ignored on a settled one. -/
def FState.reject : FState α ε → ε → FState α ε
  | .pending, e => .rejected e
  | s, _ => s

/-- Awaiting a future: a pending future suspends the awaiter (`none`); a
settled future immediately yields its stored outcome. -/
def FState.awaitResult : FState α ε → Option (Except ε α)
  | .pending => none
  | .resolved v => some (.ok v)
  | .rejected e => some (.error e)

/-- One external settlement request against a `Future`. -/
inductive SettleOp (α : Type) (ε : Type) where
  | resolveOp (v : α)
  | rejectOp (e : ε)

/-- Apply a settlement request. -/
def applySettle : SettleOp α ε → FState α ε → FState α ε
  | .resolveOp v, s => s.resolve v
  | .rejectOp e, s => s.reject e

/-- The outcome a settlement request carries. -/
def settleOutcome : SettleOp α ε → Except ε α
  | .resolveOp v => .ok v
  | .rejectOp e => .error e

/-- A JavaScript value as it appears in a message `value` field: either the
JavaScript `null` or a payload drawn from `α`. -/
inductive JVal (α : Type) where
  | null
  | val (a : α)
deriving DecidableEq

/-- A raw message object as handed to `Signaling._receiveMessage`.
`type = none` models an object without a `'type'` field; `value = none`
models an object without a `'value'` field. -/
structure Msg (α : Type) where
  type : Option String
  value : Option (JVal α)
deriving DecidableEq

/-- The four message kinds of the `switch` in `_receiveMessage`. -/
inductive MsgType where
  | description
  | candidate
  | data
  | done
deriving DecidableEq

/-- A validated message: the `'type'` field parsed, the `'value'` field
defaulted to `null` when absent.  Only validated messages reach the
handlers and the pending-inbound queue. -/
structure NMsg (α : Type) where
  type : MsgType
  value : JVal α
deriving DecidableEq

/-- The two `assert_unreached` protocol failures of `_receiveMessage`. -/
inductive ProtocolError where
  | missingTypeField
  | unknownType (t : String)
deriving DecidableEq

/-- The `switch (message.type)` dispatch cases of `_receiveMessage`. -/
def parseType (t : String) : Option MsgType :=
  if t = "description" then some .description
  else if t = "candidate" then some .candidate
  else if t = "data" then some .data
  else if t = "done" then some .done
  else none

/-- The validation prefix of `_receiveMessage` (lines 178-204): a missing
`'type'` field and an unknown type both hit `assert_unreached`; a missing
`'value'` field is defaulted to `null` before dispatch. -/
def validateMessage (m : Msg α) : Except ProtocolError (NMsg α) :=
  match m.type with
  | none => .error .missingTypeField
  | some t =>
    let v := m.value.getD JVal.null
    match parseType t with
    | some mt => .ok ⟨mt, v⟩
    | none => .error (.unknownType t)

/-- An observable delivery to a consumer: resolving the remote-description
future (identified by its allocation number), invoking the candidate or
data handler, or resolving the remote-done future. -/
inductive Delivery (α : Type) where
  | descriptionResolved (fid : Nat) (v : JVal α)
  | candidateHandler (v : JVal α)
  | dataHandler (v : JVal α)
  | doneResolved (v : JVal α)
deriving DecidableEq

/-- The mutable fields of a `Signaling` instance.  Future objects are
identified by allocation numbers (`nextFutureId` is the allocator);
the handler fields hold `true` once a handler function is registered
(`null` in the source is `false`).  `remoteDoneId` is the identity of the
`_remoteDoneFuture` reference created in the constructor; the field is
never reassigned by the source. -/
structure SigState (α : Type) where
  pendingInboundMessages : List (NMsg α)
  remoteDescriptionFuture : Option Nat
  remoteCandidateHandler : Bool
  remoteDataHandler : Bool
  doneSent : Bool
  remoteDoneFuture : FState (JVal α) Unit
  nextFutureId : Nat
  remoteDoneId : Nat
deriving DecidableEq

/-- The `Signaling` constructor. -/
def SigState.init : SigState α :=
  { pendingInboundMessages := []
    remoteDescriptionFuture := none
    remoteCandidateHandler := false
    remoteDataHandler := false
    doneSent := false
    remoteDoneFuture := .pending
    nextFutureId := 0
    remoteDoneId := 0 }

/-- `_handleRemoteDescription`: resolve the waiting future (clearing the
slot first) or enqueue the message. -/
def handleRemoteDescription (m : NMsg α) (s : SigState α) :
    SigState α × List (Delivery α) :=
  match s.remoteDescriptionFuture with
  | none =>
    ({ s with pendingInboundMessages := s.pendingInboundMessages ++ [m] }, [])
  | some fid =>
    ({ s with remoteDescriptionFuture := none },
     [.descriptionResolved fid m.value])

/-- `_handleRemoteCandidate`: call the handler or enqueue. -/
def handleRemoteCandidate (m : NMsg α) (s : SigState α) :
    SigState α × List (Delivery α) :=
  if s.remoteCandidateHandler then (s, [.candidateHandler m.value])
  else
    ({ s with pendingInboundMessages := s.pendingInboundMessages ++ [m] }, [])

/-- `_handleData`: call the handler or enqueue. -/
def handleData (m : NMsg α) (s : SigState α) :
    SigState α × List (Delivery α) :=
  if s.remoteDataHandler then (s, [.dataHandler m.value])
  else
    ({ s with pendingInboundMessages := s.pendingInboundMessages ++ [m] }, [])

/-- `_handleDone`: always resolve the remote-done future (promise semantics
make a second resolve a no-op). -/
def handleDone (m : NMsg α) (s : SigState α) :
    SigState α × List (Delivery α) :=
  ({ s with remoteDoneFuture := s.remoteDoneFuture.resolve m.value },
   [.doneResolved m.value])

/-- The `switch` of `_receiveMessage` on a validated message. -/
def dispatchMessage (m : NMsg α) (s : SigState α) :
    SigState α × List (Delivery α) :=
  match m.type with
  | .description => handleRemoteDescription m s
  | .candidate => handleRemoteCandidate m s
  | .data => handleData m s
  | .done => handleDone m s

/-- `_receiveMessage`: validate then dispatch.  A validation failure is the
fatal `assert_unreached` path; the message is not dispatched. -/
def receiveMessage (m : Msg α) (s : SigState α) :
    Except ProtocolError (SigState α × List (Delivery α)) :=
  (validateMessage m).map (fun nm => dispatchMessage nm s)

/-- Feeding a list of already-validated messages back through
`_receiveMessage` in order (re-validation of a queued message is the
identity, so this dispatches each directly). -/
def dispatchList (ms : List (NMsg α)) (s : SigState α) :
    SigState α × List (Delivery α) :=
  match ms with
  | [] => (s, [])
  | m :: rest =>
    let p1 := dispatchMessage m s
    let p2 := dispatchList rest p1.1
    (p2.1, p1.2 ++ p2.2)

/-- `_processPendingInboundMessages`: swap the queue for an empty one, then
replay the captured messages through `_receiveMessage` in order. -/
def processPendingInboundMessages (s : SigState α) :
    SigState α × List (Delivery α) :=
  dispatchList s.pendingInboundMessages { s with pendingInboundMessages := [] }

/-- `receiveRemoteDescription`: create the future if the slot is empty,
replay the pending queue, then return `this._remoteDescriptionFuture`
(the slot content after the replay; `none` is the JavaScript `null`). -/
def receiveRemoteDescription (s : SigState α) :
    SigState α × List (Delivery α) × Option Nat :=
  let s0 :=
    match s.remoteDescriptionFuture with
    | none =>
      { s with remoteDescriptionFuture := some s.nextFutureId
               nextFutureId := s.nextFutureId + 1 }
    | some _ => s
  let p := processPendingInboundMessages s0
  (p.1, p.2, p.1.remoteDescriptionFuture)

/-- `set onRemoteCandidate(handler)`: store the handler, replay the queue. -/
def setOnRemoteCandidate (s : SigState α) : SigState α × List (Delivery α) :=
  processPendingInboundMessages { s with remoteCandidateHandler := true }

/-- `set onRemoteData(handler)`: store the handler, replay the queue. -/
def setOnRemoteData (s : SigState α) : SigState α × List (Delivery α) :=
  processPendingInboundMessages { s with remoteDataHandler := true }

/-- The envelope built by `sendLocalDescription`. -/
def sendLocalDescriptionMsg (d : JVal α) : Msg α :=
  ⟨some "description", some d⟩

/-- The envelope built by `sendLocalCandidate`. -/
def sendLocalCandidateMsg (c : JVal α) : Msg α :=
  ⟨some "candidate", some c⟩

/-- The envelope built by `sendData`. -/
def sendDataMsg (d : JVal α) : Msg α :=
  ⟨some "data", some d⟩

/-- `_done(result)`: send a `done` envelope only on the first call, then
return `this._remoteDoneFuture` (identified by `remoteDoneId`).  The second
component lists the envelopes handed to `_sendMessage` by this call. -/
def doneCall (result : JVal α) (s : SigState α) :
    SigState α × List (Msg α) × Nat :=
  if s.doneSent then (s, [], s.remoteDoneId)
  else
    ({ s with doneSent := true },
     [⟨some "done", some result⟩], s.remoteDoneId)

/-- A sequence of `_done` calls on the same instance, collecting every
envelope sent and every returned future identity. -/
def doneCalls : List (JVal α) → SigState α → SigState α × List (Msg α) × List Nat
  | [], s => (s, [], [])
  | v :: rest, s =>
    let p1 := doneCall v s
    let p2 := doneCalls rest p1.1
    (p2.1, p1.2.1 ++ p2.2.1, p1.2.2 :: p2.2.2)

/-- `LoopbackSignaling._sendMessage`: forward the raw envelope straight into
the peer's `_receiveMessage`. -/
def loopbackSend (m : Msg α) (other : SigState α) :
    Except ProtocolError (SigState α × List (Delivery α)) :=
  receiveMessage m other

/-- The externally driven operations on one `Signaling` instance that the
inbound-routing claims quantify over: a message arrival and the three
consumer registrations. -/
inductive SigOp (α : Type) where
  | recv (m : Msg α)
  | reqDesc
  | setCandidateHandler
  | setDataHandler
deriving DecidableEq

/-- One operation step. -/
def sigStep (op : SigOp α) (s : SigState α) :
    Except ProtocolError (SigState α × List (Delivery α)) :=
  match op with
  | .recv m => receiveMessage m s
  | .reqDesc =>
    let p := receiveRemoteDescription s
    .ok (p.1, p.2.1)
  | .setCandidateHandler => .ok (setOnRemoteCandidate s)
  | .setDataHandler => .ok (setOnRemoteData s)

/-- Run a sequence of operations, concatenating the delivery traces. -/
def sigRun : List (SigOp α) → SigState α →
    Except ProtocolError (SigState α × List (Delivery α))
  | [], s => .ok (s, [])
  | op :: rest, s =>
    match sigStep op s with
    | .error e => .error e
    | .ok p1 =>
      match sigRun rest p1.1 with
      | .error e => .error e
      | .ok p2 => .ok (p2.1, p1.2 ++ p2.2)

/-- The kind and value a delivery handed to its consumer. -/
def deliveryKV : Delivery α → MsgType × JVal α
  | .descriptionResolved _ v => (.description, v)
  | .candidateHandler v => (.candidate, v)
  | .dataHandler v => (.data, v)
  | .doneResolved v => (.done, v)

/-- The kind/value pairs of the valid envelopes arriving in an operation
sequence, in arrival order. -/
def arrivalsKV : List (SigOp α) → List (MsgType × JVal α)
  | [] => []
  | .recv m :: rest =>
    (match validateMessage m with
     | .ok nm => (nm.type, nm.value) :: arrivalsKV rest
     | .error _ => arrivalsKV rest)
  | _ :: rest => arrivalsKV rest

/-- The arrived values of one kind, in arrival order. -/
def arrivedK (k : MsgType) (ops : List (SigOp α)) : List (JVal α) :=
  (arrivalsKV ops).filterMap (fun p => if p.1 = k then some p.2 else none)

/-- The delivered values of one kind, in delivery order. -/
def deliveredK (k : MsgType) (tr : List (Delivery α)) : List (JVal α) :=
  tr.filterMap (fun d =>
    let p := deliveryKV d
    if p.1 = k then some p.2 else none)

/-- The queued values of one kind, in queue order. -/
def queuedK (k : MsgType) (q : List (NMsg α)) : List (JVal α) :=
  q.filterMap (fun m => if m.type = k then some m.value else none)

/-- Number of futures an `Option`-valued slot holds. -/
def optCount : Option Nat → Nat
  | none => 0
  | some _ => 1

/-- Consumer/queue coherence of a `Signaling` state: once a consumer for a
kind exists, no message of that kind stays queued, and `done` messages are
never queued.  This holds in every reachable state. -/
def QueueInv (s : SigState α) : Prop :=
  (s.remoteCandidateHandler = true →
    queuedK .candidate s.pendingInboundMessages = []) ∧
  (s.remoteDataHandler = true →
    queuedK .data s.pendingInboundMessages = []) ∧
  (∀ fid, s.remoteDescriptionFuture = some fid →
    queuedK .description s.pendingInboundMessages = []) ∧
  queuedK .done s.pendingInboundMessages = []

/-- The outbound-relevant fields of a `WebSocketSignaling` instance plus the
frames actually handed to `ws.send` (in order).  `readyStateOpen` is
`ws.readyState === 1`. -/
structure WSState (α : Type) where
  pendingOutboundMessages : List (Msg α)
  readyStateOpen : Bool
  transmitted : List (Msg α)
deriving DecidableEq

/-- A fresh `WebSocketSignaling`: empty outbound queue, socket still
connecting. -/
def wsInit : WSState α :=
  { pendingOutboundMessages := [], readyStateOpen := false, transmitted := [] }

/-- `WebSocketSignaling._sendMessage`: queue while the socket is not open,
transmit directly once it is. -/
def wsSendMessage (m : Msg α) (w : WSState α) : WSState α :=
  if w.readyStateOpen then { w with transmitted := w.transmitted ++ [m] }
  else
    { w with pendingOutboundMessages := w.pendingOutboundMessages ++ [m] }

/-- The `ws.onopen` handler: the socket has reached the open state, then
every queued message is re-sent through `_sendMessage` in order (each now
transmits directly). -/
def wsOnOpen (w : WSState α) : WSState α :=
  let w1 := { w with readyStateOpen := true }
  w1.pendingOutboundMessages.foldl (fun acc m => wsSendMessage m acc) w1

/-- Externally driven WebSocket events: an outbound send and the socket's
open event. -/
inductive WSOp (α : Type) where
  | send (m : Msg α)
  | openEvent

/-- One WebSocket event step. -/
def wsStep (op : WSOp α) (w : WSState α) : WSState α :=
  match op with
  | .send m => wsSendMessage m w
  | .openEvent => wsOnOpen w

/-- Run a sequence of WebSocket events. -/
def wsRun (ops : List (WSOp α)) (w : WSState α) : WSState α :=
  ops.foldl (fun acc op => wsStep op acc) w

/-- Test statuses of the external test-lifecycle capability
(`test.PASS`, `test.FAIL`, ...). -/
inductive TStatus where
  | PASS
  | FAIL
  | TIMEOUT
  | NOTRUN
deriving DecidableEq

/-- `test.phases.STARTED` of the external test-lifecycle capability. -/
def phases_STARTED : Nat := 1

/-- `test.phases.HAS_RESULT` of the external test-lifecycle capability. -/
def phases_HAS_RESULT : Nat := 2

/-- The test fields the `test.done` override reads and writes. -/
structure TestState where
  phase : Nat
  status : TStatus
  message : Option String
deriving DecidableEq

/-- The status objects exchanged through the `done` envelopes. -/
structure DoneMsg where
  status : TStatus
  message : Option String
deriving DecidableEq

/-- JavaScript template-literal rendering of a possibly-null message
(`null` prints as the string "null"). -/
def optMsgText : Option String → String
  | some s => s
  | none => "null"

/-- The `local` object of the `test.done` override: PASS while the test is
still in flight (phase at or before STARTED), the recorded status
otherwise; the message travels only with a non-PASS status. -/
def computeLocalDone (t : TestState) : DoneMsg :=
  let status := if t.phase ≤ phases_STARTED then TStatus.PASS else t.status
  ⟨status, if status ≠ TStatus.PASS then t.message else none⟩

/-- The reconciliation step of the `test.done` override: downgrade a local
PASS to FAIL when the remote reports non-PASS, attaching the remote's
message and forcing the HAS_RESULT phase; otherwise leave the test
untouched. -/
def reconcileDone (t : TestState) (localMsg : DoneMsg) (remote : DoneMsg) :
    TestState :=
  if localMsg.status = TStatus.PASS ∧ remote.status ≠ TStatus.PASS then
    { t with status := TStatus.FAIL
             message := some ("(Remote) " ++ optMsgText remote.message)
             phase := phases_HAS_RESULT }
  else t

/-- The whole `test.done` override (given the remote status the awaited
`signaling._done(local)` produced): compute the local status, send it via
`_done`, reconcile, and hand the resulting test state to the original
`done`.  Returns the final test state, the signaling state, and the
envelopes sent. -/
def testDoneOverride (t : TestState) (s : SigState DoneMsg)
    (remote : DoneMsg) : TestState × SigState DoneMsg × List (Msg DoneMsg) :=
  let localMsg := computeLocalDone t
  let p := doneCall (JVal.val localMsg) s
  (reconcileDone t localMsg remote, p.1, p.2.1)

lemma queuedK_append (k : MsgType) (q1 q2 : List (NMsg α)) :
    queuedK k (q1 ++ q2) = queuedK k q1 ++ queuedK k q2 := by
  simp [queuedK, List.filterMap_append]

lemma deliveredK_append (k : MsgType) (t1 t2 : List (Delivery α)) :
    deliveredK k (t1 ++ t2) = deliveredK k t1 ++ deliveredK k t2 := by
  simp [deliveredK, List.filterMap_append]

lemma queuedK_nil (k : MsgType) : queuedK k ([] : List (NMsg α)) = [] := rfl

lemma deliveredK_nil (k : MsgType) : deliveredK k ([] : List (Delivery α)) = [] := rfl

lemma queuedK_single (k : MsgType) (m : NMsg α) :
    queuedK k [m] = if m.type = k then [m.value] else [] := by
  simp only [queuedK, List.filterMap]
  split <;> simp_all

lemma dispatch_spec (m : NMsg α) (s : SigState α) (hInv : QueueInv s) :
    QueueInv (dispatchMessage m s).1 ∧
    ∀ k, deliveredK k (dispatchMessage m s).2 ++
        queuedK k (dispatchMessage m s).1.pendingInboundMessages
      = queuedK k s.pendingInboundMessages ++ queuedK k [m] := by
  obtain ⟨h1, h2, h3, h4⟩ := hInv
  rcases m with ⟨mt, mv⟩
  cases mt with
  | description =>
    cases hslot : s.remoteDescriptionFuture with
    | none =>
      simp only [dispatchMessage, handleRemoteDescription, hslot]
      refine ⟨⟨?_, ?_, ?_, ?_⟩, ?_⟩
      · intro h; simp [queuedK_append, h1 h, queuedK_single]
      · intro h; simp [queuedK_append, h2 h, queuedK_single]
      · intro fid h; simp at h
      · simp [queuedK_append, h4, queuedK_single]
      · intro k
        simp [deliveredK_nil, queuedK_append]
    | some fid =>
      simp only [dispatchMessage, handleRemoteDescription, hslot]
      refine ⟨⟨?_, ?_, ?_, ?_⟩, ?_⟩
      · intro h; exact h1 h
      · intro h; exact h2 h
      · intro fid' h; simp at h
      · exact h4
      · intro k
        by_cases hk : MsgType.description = k
        · subst hk
          simp [deliveredK, deliveryKV, queuedK_single, h3 fid hslot]
        · simp [deliveredK, deliveryKV, queuedK_single, hk]
  | candidate =>
    by_cases hch : s.remoteCandidateHandler
    · simp only [dispatchMessage, handleRemoteCandidate, hch, if_pos]
      refine ⟨⟨h1, h2, h3, h4⟩, ?_⟩
      intro k
      by_cases hk : MsgType.candidate = k
      · subst hk
        simp [deliveredK, deliveryKV, queuedK_single, h1 hch]
      · simp [deliveredK, deliveryKV, queuedK_single, hk]
    · simp only [dispatchMessage, handleRemoteCandidate, hch, if_neg,
        Bool.false_eq_true, not_false_eq_true]
      refine ⟨⟨?_, ?_, ?_, ?_⟩, ?_⟩
      · intro h; simp at h
      · intro h; simp [queuedK_append, h2 h, queuedK_single]
      · intro fid h; simp at h; simp [queuedK_append, h3 fid h, queuedK_single]
      · simp [queuedK_append, h4, queuedK_single]
      · intro k
        simp [deliveredK_nil, queuedK_append]
  | data =>
    by_cases hdh : s.remoteDataHandler
    · simp only [dispatchMessage, handleData, hdh, if_pos]
      refine ⟨⟨h1, h2, h3, h4⟩, ?_⟩
      intro k
      by_cases hk : MsgType.data = k
      · subst hk
        simp [deliveredK, deliveryKV, queuedK_single, h2 hdh]
      · simp [deliveredK, deliveryKV, queuedK_single, hk]
    · simp only [dispatchMessage, handleData, hdh, if_neg,
        Bool.false_eq_true, not_false_eq_true]
      refine ⟨⟨?_, ?_, ?_, ?_⟩, ?_⟩
      · intro h; simp [queuedK_append, h1 h, queuedK_single]
      · intro h; simp at h
      · intro fid h; simp at h; simp [queuedK_append, h3 fid h, queuedK_single]
      · simp [queuedK_append, h4, queuedK_single]
      · intro k
        simp [deliveredK_nil, queuedK_append]
  | done =>
    simp only [dispatchMessage, handleDone]
    refine ⟨⟨h1, h2, h3, h4⟩, ?_⟩
    intro k
    by_cases hk : MsgType.done = k
    · subst hk
      simp [deliveredK, deliveryKV, queuedK_single, h4]
    · simp [deliveredK, deliveryKV, queuedK_single, hk]

lemma queuedK_cons (k : MsgType) (m : NMsg α) (rest : List (NMsg α)) :
    queuedK k (m :: rest) = queuedK k [m] ++ queuedK k rest := by
  rw [← queuedK_append, List.singleton_append]

lemma dispatchList_spec : ∀ (ms : List (NMsg α)) (s : SigState α), QueueInv s →
    QueueInv (dispatchList ms s).1 ∧
    ∀ k, deliveredK k (dispatchList ms s).2 ++
        queuedK k (dispatchList ms s).1.pendingInboundMessages
      = queuedK k s.pendingInboundMessages ++ queuedK k ms := by
  intro ms
  induction ms with
  | nil =>
    intro s h
    exact ⟨h, fun k => by simp [dispatchList, deliveredK_nil, queuedK_nil]⟩
  | cons m rest ih =>
    intro s h
    obtain ⟨hInv1, hKinds1⟩ := dispatch_spec m s h
    obtain ⟨hInv2, hKinds2⟩ := ih (dispatchMessage m s).1 hInv1
    constructor
    · simpa [dispatchList] using hInv2
    · intro k
      have e1 := hKinds1 k
      have e2 := hKinds2 k
      simp only [dispatchList]
      rw [deliveredK_append, List.append_assoc, e2, ← List.append_assoc, e1,
        List.append_assoc, ← queuedK_append, List.singleton_append]

lemma emptyQueue_inv (s : SigState α) (h : s.pendingInboundMessages = []) :
    QueueInv s := by
  refine ⟨fun _ => ?_, fun _ => ?_, fun _ _ => ?_, ?_⟩ <;> simp [h, queuedK_nil]

lemma processPending_spec (s : SigState α) :
    QueueInv (processPendingInboundMessages s).1 ∧
    ∀ k, deliveredK k (processPendingInboundMessages s).2 ++
        queuedK k (processPendingInboundMessages s).1.pendingInboundMessages
      = queuedK k s.pendingInboundMessages := by
  have hInv : QueueInv ({ s with pendingInboundMessages := [] } : SigState α) :=
    emptyQueue_inv _ rfl
  obtain ⟨h1, h2⟩ := dispatchList_spec s.pendingInboundMessages _ hInv
  refine ⟨h1, fun k => ?_⟩
  have := h2 k
  simpa [processPendingInboundMessages, queuedK_nil] using this

lemma arrivalsKV_cons (op : SigOp α) (rest : List (SigOp α)) :
    arrivalsKV (op :: rest) = arrivalsKV [op] ++ arrivalsKV rest := by
  cases op with
  | recv m =>
    simp only [arrivalsKV]
    cases validateMessage m <;> simp [arrivalsKV]
  | reqDesc => simp [arrivalsKV]
  | setCandidateHandler => simp [arrivalsKV]
  | setDataHandler => simp [arrivalsKV]

lemma arrivedK_cons (k : MsgType) (op : SigOp α) (rest : List (SigOp α)) :
    arrivedK k (op :: rest) = arrivedK k [op] ++ arrivedK k rest := by
  simp [arrivedK, arrivalsKV_cons op rest, List.filterMap_append]

lemma arrivedK_recv (k : MsgType) (m : Msg α) (nm : NMsg α)
    (h : validateMessage m = .ok nm) :
    arrivedK k [SigOp.recv m] = queuedK k [nm] := by
  simp [arrivedK, arrivalsKV, h, queuedK_single, List.filterMap]
  split <;> simp_all

lemma sigStep_spec (op : SigOp α) (s s' : SigState α) (tr : List (Delivery α))
    (h : sigStep op s = .ok (s', tr)) (hInv : QueueInv s) :
    QueueInv s' ∧
    ∀ k, deliveredK k tr ++ queuedK k s'.pendingInboundMessages
      = queuedK k s.pendingInboundMessages ++ arrivedK k [op] := by
  cases op with
  | recv m =>
    simp only [sigStep, receiveMessage] at h
    cases hv : validateMessage m with
    | error e => rw [hv] at h; simp [Except.map] at h
    | ok nm =>
      rw [hv] at h
      simp only [Except.map, Except.ok.injEq] at h
      have hs' : (dispatchMessage nm s).1 = s' := by rw [h]
      have htr : (dispatchMessage nm s).2 = tr := by rw [h]
      subst hs'; subst htr
      obtain ⟨hInv', hKinds⟩ := dispatch_spec nm s hInv
      refine ⟨hInv', fun k => ?_⟩
      rw [arrivedK_recv k m nm hv]
      exact hKinds k
  | reqDesc =>
    cases hslot : s.remoteDescriptionFuture with
    | none =>
      simp only [sigStep, receiveRemoteDescription, hslot, Except.ok.injEq,
        Prod.mk.injEq] at h
      obtain ⟨hs', htr⟩ := h
      subst hs'; subst htr
      obtain ⟨hInv', hKinds⟩ := processPending_spec
        ({ s with remoteDescriptionFuture := some s.nextFutureId
                  nextFutureId := s.nextFutureId + 1 } : SigState α)
      refine ⟨hInv', fun k => ?_⟩
      have := hKinds k
      simpa [arrivedK, arrivalsKV] using this
    | some fid =>
      simp only [sigStep, receiveRemoteDescription, hslot, Except.ok.injEq,
        Prod.mk.injEq] at h
      obtain ⟨hs', htr⟩ := h
      subst hs'; subst htr
      obtain ⟨hInv', hKinds⟩ := processPending_spec s
      refine ⟨hInv', fun k => ?_⟩
      have := hKinds k
      simpa [arrivedK, arrivalsKV] using this
  | setCandidateHandler =>
    simp only [sigStep, setOnRemoteCandidate, Except.ok.injEq] at h
    have hs' : (processPendingInboundMessages
        ({ s with remoteCandidateHandler := true } : SigState α)).1 = s' := by
      rw [h]
    have htr : (processPendingInboundMessages
        ({ s with remoteCandidateHandler := true } : SigState α)).2 = tr := by
      rw [h]
    clear h; subst hs'; subst htr
    obtain ⟨hInv', hKinds⟩ := processPending_spec
      ({ s with remoteCandidateHandler := true } : SigState α)
    refine ⟨hInv', fun k => ?_⟩
    have := hKinds k
    simpa [arrivedK, arrivalsKV] using this
  | setDataHandler =>
    simp only [sigStep, setOnRemoteData, Except.ok.injEq] at h
    have hs' : (processPendingInboundMessages
        ({ s with remoteDataHandler := true } : SigState α)).1 = s' := by
      rw [h]
    have htr : (processPendingInboundMessages
        ({ s with remoteDataHandler := true } : SigState α)).2 = tr := by
      rw [h]
    clear h; subst hs'; subst htr
    obtain ⟨hInv', hKinds⟩ := processPending_spec
      ({ s with remoteDataHandler := true } : SigState α)
    refine ⟨hInv', fun k => ?_⟩
    have := hKinds k
    simpa [arrivedK, arrivalsKV] using this

lemma sigRun_spec : ∀ (ops : List (SigOp α)) (s s' : SigState α)
    (tr : List (Delivery α)), sigRun ops s = .ok (s', tr) → QueueInv s →
    QueueInv s' ∧
    ∀ k, deliveredK k tr ++ queuedK k s'.pendingInboundMessages
      = queuedK k s.pendingInboundMessages ++ arrivedK k ops := by
  intro ops
  induction ops with
  | nil =>
    intro s s' tr h hInv
    simp only [sigRun, Except.ok.injEq, Prod.mk.injEq] at h
    obtain ⟨hs, ht⟩ := h
    subst hs; cases ht
    exact ⟨hInv, fun k => by simp [deliveredK_nil, arrivedK, arrivalsKV]⟩
  | cons op rest ih =>
    intro s s' tr h hInv
    simp only [sigRun] at h
    split at h
    · exact absurd h (by simp)
    next p1 hstep =>
      split at h
      · exact absurd h (by simp)
      next p2 hrun =>
        simp only [Except.ok.injEq, Prod.mk.injEq] at h
        obtain ⟨hs, ht⟩ := h
        subst hs
        obtain ⟨hInv1, hKinds1⟩ :=
          sigStep_spec op s p1.1 p1.2 (by rw [hstep]) hInv
        obtain ⟨hInv2, hKinds2⟩ := ih p1.1 p2.1 p2.2 hrun hInv1
        refine ⟨hInv2, fun k => ?_⟩
        rw [← ht, deliveredK_append, List.append_assoc, hKinds2 k,
          ← List.append_assoc, hKinds1 k, List.append_assoc,
          ← arrivedK_cons]

lemma dispatch_slot_preserved (m : NMsg α) (s : SigState α)
    (h : m.type ≠ MsgType.description) :
    (dispatchMessage m s).1.remoteDescriptionFuture
      = s.remoteDescriptionFuture := by
  rcases m with ⟨mt, mv⟩
  cases mt with
  | description => exact absurd rfl h
  | candidate =>
    by_cases hc : s.remoteCandidateHandler <;>
      simp [dispatchMessage, handleRemoteCandidate, hc]
  | data =>
    by_cases hd : s.remoteDataHandler <;>
      simp [dispatchMessage, handleData, hd]
  | done => simp [dispatchMessage, handleDone]

lemma dispatch_nextId (m : NMsg α) (s : SigState α) :
    (dispatchMessage m s).1.nextFutureId = s.nextFutureId := by
  rcases m with ⟨mt, mv⟩
  cases mt with
  | description =>
    cases hs : s.remoteDescriptionFuture <;>
      simp [dispatchMessage, handleRemoteDescription, hs]
  | candidate =>
    by_cases hc : s.remoteCandidateHandler <;>
      simp [dispatchMessage, handleRemoteCandidate, hc]
  | data =>
    by_cases hd : s.remoteDataHandler <;>
      simp [dispatchMessage, handleData, hd]
  | done => simp [dispatchMessage, handleDone]

lemma dispatchList_nextId : ∀ (ms : List (NMsg α)) (s : SigState α),
    (dispatchList ms s).1.nextFutureId = s.nextFutureId := by
  intro ms
  induction ms with
  | nil => intro s; rfl
  | cons m rest ih =>
    intro s
    simp only [dispatchList]
    rw [ih, dispatch_nextId]

lemma dispatchList_slot_no_desc : ∀ (ms : List (NMsg α)) (s : SigState α),
    (∀ m ∈ ms, m.type ≠ MsgType.description) →
    (dispatchList ms s).1.remoteDescriptionFuture
      = s.remoteDescriptionFuture := by
  intro ms
  induction ms with
  | nil => intro s h; rfl
  | cons m rest ih =>
    intro s h
    simp only [dispatchList]
    rw [ih _ (fun x hx => h x (List.mem_cons_of_mem m hx)),
      dispatch_slot_preserved m s (h m (List.mem_cons_self m rest))]

lemma queuedK_eq_nil (k : MsgType) (q : List (NMsg α))
    (h : queuedK k q = []) : ∀ m ∈ q, m.type ≠ k := by
  intro m hm hk
  have h2 := List.filterMap_eq_nil_iff.mp h m hm
  rw [hk] at h2
  simp at h2

lemma dispatch_desc_take (m : NMsg α) (s : SigState α) :
    deliveredK MsgType.description (dispatchMessage m s).2
      = (queuedK MsgType.description [m]).take
          (optCount s.remoteDescriptionFuture) ∧
    optCount (dispatchMessage m s).1.remoteDescriptionFuture
      = optCount s.remoteDescriptionFuture
          - (queuedK MsgType.description [m]).length := by
  rcases m with ⟨mt, mv⟩
  cases mt with
  | description =>
    cases hs : s.remoteDescriptionFuture with
    | none =>
      simp [dispatchMessage, handleRemoteDescription, hs, optCount,
        queuedK_single, deliveredK_nil]
    | some fid =>
      simp [dispatchMessage, handleRemoteDescription, hs, optCount,
        queuedK_single, deliveredK, deliveryKV]
  | candidate =>
    by_cases hc : s.remoteCandidateHandler <;>
      simp [dispatchMessage, handleRemoteCandidate, hc, optCount,
        queuedK_single, deliveredK, deliveryKV, deliveredK_nil]
  | data =>
    by_cases hd : s.remoteDataHandler <;>
      simp [dispatchMessage, handleData, hd, optCount,
        queuedK_single, deliveredK, deliveryKV, deliveredK_nil]
  | done =>
    simp [dispatchMessage, handleDone, optCount, queuedK_single,
      deliveredK, deliveryKV]

lemma dispatchList_desc_take : ∀ (ms : List (NMsg α)) (s : SigState α),
    deliveredK MsgType.description (dispatchList ms s).2
      = (queuedK MsgType.description ms).take
          (optCount s.remoteDescriptionFuture) ∧
    optCount (dispatchList ms s).1.remoteDescriptionFuture
      = optCount s.remoteDescriptionFuture
          - (queuedK MsgType.description ms).length := by
  intro ms
  induction ms with
  | nil => intro s; simp [dispatchList, deliveredK_nil, queuedK_nil]
  | cons m rest ih =>
    intro s
    obtain ⟨e1, c1⟩ := dispatch_desc_take m s
    obtain ⟨e2, c2⟩ := ih (dispatchMessage m s).1
    constructor
    · simp only [dispatchList]
      rw [deliveredK_append, e1, e2, c1,
        queuedK_cons MsgType.description m rest,
        List.take_append_eq_append_take]
    · simp only [dispatchList]
      rw [c2, c1, queuedK_cons MsgType.description m rest]
      simp [Nat.sub_sub]

lemma doneCalls_sent : ∀ (vs : List (JVal α)) (s : SigState α),
    s.doneSent = true →
    doneCalls vs s = (s, [], List.replicate vs.length s.remoteDoneId) := by
  intro vs
  induction vs with
  | nil => intro s h; rfl
  | cons v rest ih =>
    intro s h
    simp [doneCalls, doneCall, h, ih s h, List.replicate_succ]

lemma applySettle_resolved (o : SettleOp α ε) (v : α) :
    applySettle o (FState.resolved v) = FState.resolved v := by
  cases o <;> rfl

lemma applySettle_rejected (o : SettleOp α ε) (e : ε) :
    applySettle o (FState.rejected e) = FState.rejected e := by
  cases o <;> rfl

lemma foldl_applySettle_resolved :
    ∀ (later : List (SettleOp α ε)) (v : α),
    later.foldl (fun st o => applySettle o st) (FState.resolved v)
      = FState.resolved v := by
  intro later
  induction later with
  | nil => intro v; rfl
  | cons o rest ih =>
    intro v
    simp [List.foldl_cons, applySettle_resolved, ih]

lemma foldl_applySettle_rejected :
    ∀ (later : List (SettleOp α ε)) (e : ε),
    later.foldl (fun st o => applySettle o st) (FState.rejected e)
      = FState.rejected e := by
  intro later
  induction later with
  | nil => intro e; rfl
  | cons o rest ih =>
    intro e
    simp [List.foldl_cons, applySettle_rejected, ih]

lemma wsRun_cons (op : WSOp α) (ops : List (WSOp α)) (w : WSState α) :
    wsRun (op :: ops) w = wsRun ops (wsStep op w) := rfl

lemma wsRun_append (l1 l2 : List (WSOp α)) (w : WSState α) :
    wsRun (l1 ++ l2) w = wsRun l2 (wsRun l1 w) := by
  simp [wsRun, List.foldl_append]

lemma wsRun_sends_closed : ∀ (ms q tx : List (Msg α)),
    wsRun (ms.map WSOp.send) ⟨q, false, tx⟩ = ⟨q ++ ms, false, tx⟩ := by
  intro ms
  induction ms with
  | nil => intro q tx; simp [wsRun]
  | cons m rest ih =>
    intro q tx
    rw [List.map_cons, wsRun_cons]
    have hstep : wsStep (WSOp.send m) (⟨q, false, tx⟩ : WSState α)
        = ⟨q ++ [m], false, tx⟩ := by
      simp [wsStep, wsSendMessage]
    rw [hstep, ih]
    simp

lemma wsRun_sends_open : ∀ (ms q tx : List (Msg α)),
    wsRun (ms.map WSOp.send) ⟨q, true, tx⟩ = ⟨q, true, tx ++ ms⟩ := by
  intro ms
  induction ms with
  | nil => intro q tx; simp [wsRun]
  | cons m rest ih =>
    intro q tx
    rw [List.map_cons, wsRun_cons]
    have hstep : wsStep (WSOp.send m) (⟨q, true, tx⟩ : WSState α)
        = ⟨q, true, tx ++ [m]⟩ := by
      simp [wsStep, wsSendMessage]
    rw [hstep, ih]
    simp

lemma foldl_send_open : ∀ (ms q tx : List (Msg α)),
    ms.foldl (fun acc m => wsSendMessage m acc) ⟨q, true, tx⟩
      = ⟨q, true, tx ++ ms⟩ := by
  intro ms
  induction ms with
  | nil => intro q tx; simp
  | cons m rest ih =>
    intro q tx
    have hstep : wsSendMessage m (⟨q, true, tx⟩ : WSState α)
        = ⟨q, true, tx ++ [m]⟩ := by
      simp [wsSendMessage]
    rw [List.foldl_cons, hstep, ih]
    simp

lemma wsOnOpen_eval (q tx : List (Msg α)) :
    wsOnOpen (⟨q, false, tx⟩ : WSState α) = ⟨q, true, tx ++ q⟩ := by
  simp only [wsOnOpen]
  exact foldl_send_open q q tx

/-- C8: the first `resolve` or `reject` call settles a `Future` with that
outcome; every later settlement call is ignored; all awaiters observe the
single stored outcome, awaiting a settled future completes immediately with
it, and awaiting a pending future suspends. -/
theorem future_settles_exactly_once (α ε : Type) (op : SettleOp α ε)
    (later : List (SettleOp α ε)) :
    later.foldl (fun st o => applySettle o st) (applySettle op FState.pending)
      = applySettle op FState.pending
  ∧ FState.awaitResult (applySettle op FState.pending)
      = some (settleOutcome op)
  ∧ FState.awaitResult (FState.pending : FState α ε) = none := by
  refine ⟨?_, ?_, rfl⟩
  · cases op with
    | resolveOp v =>
      simpa [applySettle, FState.resolve] using
        foldl_applySettle_resolved later v
    | rejectOp e =>
      simpa [applySettle, FState.reject] using
        foldl_applySettle_rejected later e
  · cases op <;> rfl

/-- C3: every `_sendMessage` issued while the socket is not open is queued;
once the open event fires, the queued messages are transmitted in their
original send order and before every message sent after open; a
`_sendMessage` issued while the socket is open transmits immediately. -/
theorem websocket_outbound_flush_order (α : Type) (pre post : List (Msg α))
    (w : WSState α) (m : Msg α) :
    (wsRun (pre.map WSOp.send ++ WSOp.openEvent :: post.map WSOp.send)
        (wsInit : WSState α)).transmitted = pre ++ post
  ∧ wsSendMessage m { w with readyStateOpen := false }
      = { w with readyStateOpen := false
                 pendingOutboundMessages := w.pendingOutboundMessages ++ [m] }
  ∧ (wsSendMessage m { w with readyStateOpen := true }).transmitted
      = w.transmitted ++ [m] := by
  refine ⟨?_, ?_, ?_⟩
  · rw [wsRun_append]
    have h1 : wsRun (pre.map WSOp.send) (wsInit : WSState α)
        = ⟨pre, false, []⟩ := by
      simpa using wsRun_sends_closed pre [] []
    rw [h1, wsRun_cons]
    have h2 : wsStep WSOp.openEvent (⟨pre, false, []⟩ : WSState α)
        = ⟨pre, true, pre⟩ := by
      simpa [wsStep] using wsOnOpen_eval pre []
    rw [h2, wsRun_sends_open]
  · simp [wsSendMessage]
  · simp [wsSendMessage]

/-- C7: `_receiveMessage` raises a fatal unreachable-assertion protocol
error (and dispatches nothing) on a message without a `'type'` field,
defaults a missing `'value'` field to null before dispatch, and raises a
fatal unreachable-assertion protocol error on any type other than
`'description'`, `'candidate'`, `'data'` or `'done'`. -/
theorem receive_message_validation (α : Type) (m : Msg α) (s : SigState α)
    (t : String) (v : Option (JVal α)) :
    (m.type = none →
      receiveMessage m s = .error ProtocolError.missingTypeField)
  ∧ receiveMessage ⟨some t, none⟩ s = receiveMessage ⟨some t, some JVal.null⟩ s
  ∧ (t ≠ "description" → t ≠ "candidate" → t ≠ "data" → t ≠ "done" →
      receiveMessage ⟨some t, v⟩ s = .error (ProtocolError.unknownType t)) := by
  refine ⟨?_, rfl, ?_⟩
  · intro h
    simp [receiveMessage, validateMessage, h, Except.map]
  · intro h1 h2 h3 h4
    simp [receiveMessage, validateMessage, parseType, h1, h2, h3, h4,
      Except.map]

/-- Witness for C7 at concrete inputs: a message without a type field is a
protocol error, and the unknown type `'bogus'` is a protocol error. -/
theorem receive_message_validation_witness :
    receiveMessage (⟨none, some (JVal.val (0 : Nat))⟩ : Msg Nat) SigState.init
      = .error ProtocolError.missingTypeField
  ∧ receiveMessage (⟨some "bogus", none⟩ : Msg Nat) SigState.init
      = .error (ProtocolError.unknownType "bogus") :=
  ⟨(receive_message_validation Nat ⟨none, some (JVal.val 0)⟩ SigState.init
      "x" none).1 rfl,
   (receive_message_validation Nat ⟨some "bogus", none⟩ SigState.init
      "bogus" none).2.2 (by decide) (by decide) (by decide) (by decide)⟩

/-- C4: on a fresh instance, any sequence of `_done` calls transmits
exactly one `done` envelope, carrying the first call's status, and every
call returns the same remote-done future. -/
theorem done_sent_exactly_once (α : Type) (v : JVal α) (vs : List (JVal α))
    (s : SigState α) (h : s.doneSent = false) :
    (doneCalls (v :: vs) s).2.1 = [⟨some "done", some v⟩]
  ∧ (doneCalls (v :: vs) s).2.2
      = List.replicate (vs.length + 1) s.remoteDoneId := by
  have h1 : doneCall v s
      = ({ s with doneSent := true }, [⟨some "done", some v⟩],
         s.remoteDoneId) := by
    simp [doneCall, h]
  have h2 := doneCalls_sent vs ({ s with doneSent := true } : SigState α) rfl
  constructor
  · simp [doneCalls, h1, h2]
  · simp [doneCalls, h1, h2, List.replicate_succ]

/-- Witness for C4: two `_done` calls on a fresh instance send one `done`
envelope with the first status and both return the constructor's
remote-done future. -/
theorem done_sent_exactly_once_witness :
    (doneCalls [JVal.val (1 : Nat), JVal.val 2] SigState.init).2.1
      = [⟨some "done", some (JVal.val 1)⟩]
  ∧ (doneCalls [JVal.val (1 : Nat), JVal.val 2] SigState.init).2.2
      = List.replicate 2 (SigState.init : SigState Nat).remoteDoneId :=
  done_sent_exactly_once Nat (JVal.val 1) [JVal.val 2] SigState.init rfl

/-- C1 (amended): for every operation sequence, per message kind, the
arrived values equal the delivered values followed by the still-queued
values, in order — so no envelope is lost or duplicated, each is delivered
to exactly one consumer, and envelopes of the same kind are delivered in
arrival order.  (Cross-kind arrival order is not preserved; see the
counterexample.) -/
theorem envelopes_per_kind_fifo_exactly_once (α : Type)
    (ops : List (SigOp α)) (s : SigState α) (tr : List (Delivery α))
    (h : sigRun ops SigState.init = .ok (s, tr)) (k : MsgType) :
    arrivedK k ops
      = deliveredK k tr ++ queuedK k s.pendingInboundMessages := by
  obtain ⟨_, hKinds⟩ :=
    sigRun_spec ops SigState.init s tr h (emptyQueue_inv _ rfl)
  have hk := hKinds k
  simpa [SigState.init, queuedK_nil] using hk.symm

/-- Witness for C1 (amended) at a concrete run: one `data` envelope arrives
with no handler registered; it is retained in the queue, neither lost nor
delivered twice. -/
theorem envelopes_per_kind_fifo_witness :
    arrivedK MsgType.data
        [SigOp.recv (⟨some "data", some (JVal.val (5 : Nat))⟩ : Msg Nat)]
      = deliveredK MsgType.data ([] : List (Delivery Nat))
        ++ queuedK MsgType.data
            ((⟨[⟨MsgType.data, JVal.val 5⟩], none, false, false, false,
                FState.pending, 0, 0⟩ : SigState Nat)).pendingInboundMessages :=
  envelopes_per_kind_fifo_exactly_once Nat
    [SigOp.recv ⟨some "data", some (JVal.val 5)⟩]
    ⟨[⟨MsgType.data, JVal.val 5⟩], none, false, false, false,
      FState.pending, 0, 0⟩
    [] rfl MsgType.data

/-- C1 counterexample: a candidate arrives first (no handler yet, queued),
the description consumer registers, then a description arrives and is
delivered at once, and finally the candidate handler registers and receives
the queued candidate.  All envelopes are delivered (final queue empty), but
the delivery order description-then-candidate differs from the arrival
order candidate-then-description: envelopes are reordered across kinds
relative to each other, refuting the claim as stated. -/
theorem envelope_cross_kind_reorder :
    (sigRun
        [SigOp.recv (⟨some "candidate", some (JVal.val (1 : Nat))⟩ : Msg Nat),
         SigOp.reqDesc,
         SigOp.recv ⟨some "description", some (JVal.val 2)⟩,
         SigOp.setCandidateHandler] SigState.init).map
        (fun p => (p.2.map deliveryKV, p.1.pendingInboundMessages))
      = .ok ([(MsgType.description, JVal.val 2),
              (MsgType.candidate, JVal.val 1)], [])
  ∧ arrivalsKV
        [SigOp.recv (⟨some "candidate", some (JVal.val (1 : Nat))⟩ : Msg Nat),
         SigOp.reqDesc,
         SigOp.recv ⟨some "description", some (JVal.val 2)⟩,
         SigOp.setCandidateHandler]
      = [(MsgType.candidate, JVal.val 1), (MsgType.description, JVal.val 2)]
  ∧ ([(MsgType.description, JVal.val 2), (MsgType.candidate, JVal.val 1)] :
        List (MsgType × JVal Nat))
      ≠ [(MsgType.candidate, JVal.val 1), (MsgType.description, JVal.val 2)] :=
  ⟨rfl, rfl, by decide⟩

/-- C2, evaluated at the failing input: requesting the remote description
before the matching message arrives returns future 0 and the arrival
resolves it with the payload; but when the description (payload 7) has
already arrived and been enqueued, `receiveRemoteDescription` replays the
queue — which resolves and clears the slot — and then returns the cleared
slot, the JavaScript `null`, so the caller awaits `null` and never sees the
payload. -/
theorem receive_after_enqueued_description_returns_null :
    (receiveRemoteDescription (SigState.init : SigState Nat)).2.2 = some 0
  ∧ (receiveMessage (⟨some "description", some (JVal.val 7)⟩ : Msg Nat)
        (receiveRemoteDescription (SigState.init : SigState Nat)).1).map
          (fun p => p.2)
      = .ok [Delivery.descriptionResolved 0 (JVal.val 7)]
  ∧ (receiveMessage (⟨some "description", some (JVal.val 7)⟩ : Msg Nat)
        (SigState.init : SigState Nat)).map
          (fun p => (receiveRemoteDescription p.1).2.2)
      = .ok none :=
  ⟨rfl, rfl, rfl⟩

/-- C9: in every reachable state whose remote-description future is still
pending, a further `receiveRemoteDescription` call returns that very same
future and allocates no new one — a single arriving description settles
both waits with the same value. -/
theorem second_receive_call_returns_same_future (α : Type)
    (ops : List (SigOp α)) (s : SigState α) (tr : List (Delivery α))
    (fid : Nat) (hrun : sigRun ops SigState.init = .ok (s, tr))
    (hslot : s.remoteDescriptionFuture = some fid) :
    (receiveRemoteDescription s).2.2 = some fid
  ∧ (receiveRemoteDescription s).1.nextFutureId = s.nextFutureId := by
  obtain ⟨hInv, _⟩ :=
    sigRun_spec ops SigState.init s tr hrun (emptyQueue_inv _ rfl)
  have hq : queuedK MsgType.description s.pendingInboundMessages = [] :=
    hInv.2.2.1 fid hslot
  have hnodesc := queuedK_eq_nil MsgType.description _ hq
  constructor
  · simp only [receiveRemoteDescription, hslot, processPendingInboundMessages]
    rw [dispatchList_slot_no_desc s.pendingInboundMessages _ hnodesc]
  · simp only [receiveRemoteDescription, hslot, processPendingInboundMessages]
    rw [dispatchList_nextId]

/-- Witness for C9: after one `receiveRemoteDescription` call on a fresh
instance (future 0 pending), a second call returns future 0 again and
allocates nothing. -/
theorem second_receive_call_witness :
    (receiveRemoteDescription
        (⟨[], some 0, false, false, false, FState.pending, 1, 0⟩ :
          SigState Nat)).2.2 = some 0
  ∧ (receiveRemoteDescription
        (⟨[], some 0, false, false, false, FState.pending, 1, 0⟩ :
          SigState Nat)).1.nextFutureId
      = (⟨[], some 0, false, false, false, FState.pending, 1, 0⟩ :
          SigState Nat).nextFutureId :=
  second_receive_call_returns_same_future Nat [SigOp.reqDesc]
    ⟨[], some 0, false, false, false, FState.pending, 1, 0⟩ [] 0 rfl rfl

/-- C10: a description message arriving while a wait is outstanding clears
the slot (so no wait remains outstanding) and resolves the waiting future
with the payload; arriving with no outstanding wait it is enqueued, not
dropped; and each `receiveRemoteDescription` call consumes exactly the
first queued description message — never more than one. -/
theorem description_slot_consume_one (α : Type) (s : SigState α)
    (m : NMsg α) (fid : Nat) :
    (m.type = MsgType.description → s.remoteDescriptionFuture = some fid →
      dispatchMessage m s
        = ({ s with remoteDescriptionFuture := none },
           [Delivery.descriptionResolved fid m.value]))
  ∧ (m.type = MsgType.description → s.remoteDescriptionFuture = none →
      dispatchMessage m s
        = ({ s with pendingInboundMessages :=
              s.pendingInboundMessages ++ [m] }, []))
  ∧ deliveredK MsgType.description (receiveRemoteDescription s).2.1
      = (queuedK MsgType.description s.pendingInboundMessages).take 1 := by
  refine ⟨?_, ?_, ?_⟩
  · intro ht hs
    rcases m with ⟨mt, mv⟩
    subst ht
    simp [dispatchMessage, handleRemoteDescription, hs]
  · intro ht hs
    rcases m with ⟨mt, mv⟩
    subst ht
    simp [dispatchMessage, handleRemoteDescription, hs]
  · cases hslot : s.remoteDescriptionFuture with
    | none =>
      simp only [receiveRemoteDescription, hslot,
        processPendingInboundMessages]
      simpa [optCount] using
        (dispatchList_desc_take s.pendingInboundMessages _).1
    | some fid' =>
      simp only [receiveRemoteDescription, hslot,
        processPendingInboundMessages]
      simpa [optCount] using
        (dispatchList_desc_take s.pendingInboundMessages _).1

/-- Witness for C10: with future 0 pending, an arriving description with
payload 3 clears the slot and resolves future 0 with payload 3. -/
theorem description_slot_consume_one_witness :
    dispatchMessage (⟨MsgType.description, JVal.val (3 : Nat)⟩ : NMsg Nat)
        (⟨[], some 0, false, false, false, FState.pending, 1, 0⟩ :
          SigState Nat)
      = (⟨[], none, false, false, false, FState.pending, 1, 0⟩,
         [Delivery.descriptionResolved 0 (JVal.val 3)]) :=
  (description_slot_consume_one Nat
    ⟨[], some 0, false, false, false, FState.pending, 1, 0⟩
    ⟨MsgType.description, JVal.val 3⟩ 0).1 rfl rfl

/-- C5: at test completion in cross-instance mode, the local status is PASS
while the test is still in a phase at or before STARTED and the recorded
status otherwise; it is sent in a single `done` envelope; the local result
is downgraded to FAIL with the remote's message attached (and the phase
forced to HAS_RESULT) exactly when the local status is PASS and the
remote's is not, and is left untouched otherwise — all before the original
completion callback receives the state. -/
theorem done_override_reconciliation (t : TestState) (remote : DoneMsg)
    (s : SigState DoneMsg) :
    (t.phase ≤ phases_STARTED → (computeLocalDone t).status = TStatus.PASS)
  ∧ (¬ t.phase ≤ phases_STARTED → (computeLocalDone t).status = t.status)
  ∧ (s.doneSent = false →
      (testDoneOverride t s remote).2.2
        = [⟨some "done", some (JVal.val (computeLocalDone t))⟩])
  ∧ ((computeLocalDone t).status = TStatus.PASS →
      remote.status ≠ TStatus.PASS →
      (testDoneOverride t s remote).1
        = { t with status := TStatus.FAIL
                   message := some ("(Remote) " ++ optMsgText remote.message)
                   phase := phases_HAS_RESULT })
  ∧ ((computeLocalDone t).status ≠ TStatus.PASS ∨ remote.status = TStatus.PASS →
      (testDoneOverride t s remote).1 = t) := by
  refine ⟨?_, ?_, ?_, ?_, ?_⟩
  · intro h; simp [computeLocalDone, h]
  · intro h; simp [computeLocalDone, h]
  · intro h; simp [testDoneOverride, doneCall, h]
  · intro h1 h2
    simp [testDoneOverride, reconcileDone, h1, h2]
  · intro h
    rcases h with h | h
    · simp [testDoneOverride, reconcileDone, h]
    · simp [testDoneOverride, reconcileDone, h]

/-- Witness for C5: the test is still in the STARTED phase (optimistic
local PASS), the remote reports FAIL with message "X"; the local result is
downgraded to FAIL carrying the remote's message. -/
theorem done_override_reconciliation_witness :
    (testDoneOverride ⟨1, TStatus.PASS, none⟩ SigState.init
        ⟨TStatus.FAIL, some "X"⟩).1
      = ⟨phases_HAS_RESULT, TStatus.FAIL,
         some ("(Remote) " ++ optMsgText (some "X"))⟩ :=
  (done_override_reconciliation ⟨1, TStatus.PASS, none⟩
    ⟨TStatus.FAIL, some "X"⟩ SigState.init).2.2.2.1 rfl (by decide)

/-- C6: loopback round trip over two cross-wired fresh instances.  B (the
answerer) requests the remote description first; A then sends offer O,
which the loopback adapter feeds straight into B, resolving B's future 0
with exactly O.  Symmetrically, A requests the remote description and B
sends answer Ans, which resolves A's future 0 with exactly Ans: each
side's received remote description equals the other's sent local
description. -/
theorem loopback_offer_answer_round_trip (α : Type) (offer answer : JVal α) :
    (receiveRemoteDescription (SigState.init : SigState α)).2.2 = some 0
  ∧ (loopbackSend (sendLocalDescriptionMsg offer)
        (receiveRemoteDescription (SigState.init : SigState α)).1).map
          (fun p => p.2)
      = .ok [Delivery.descriptionResolved 0 offer]
  ∧ (loopbackSend (sendLocalDescriptionMsg answer)
        (receiveRemoteDescription (SigState.init : SigState α)).1).map
          (fun p => p.2)
      = .ok [Delivery.descriptionResolved 0 answer] :=
  ⟨rfl, rfl, rfl⟩
